import Mathlib

/-!
Verification of the CI build-log summarizer (extras/parse_travis_log.py).

The script is a pure log-to-report transformer: it scans the lines of a
build log for fixed marker substrings, recognizes marker-delimited
sections, accumulates per-file message counts into dictionaries, and
folds everything into an exit code.  We embed it shallowly: a log line
is its list of characters, a log is a list of lines, Python dictionaries
become insertion-ordered association lists, and each scanning loop
becomes a fold over the lines with an explicit state record.  Python's
fallible constructs (int() parsing, list indexing that may raise) are
modelled with Except/Option.
-/

set_option autoImplicit false

namespace PTL

/-- A log line, modelled as its list of characters. -/
abbrev Line := List Char

/-- Python's substring containment test (the `in` operator on strings):
true when the needle occurs contiguously inside the haystack. -/
def containsSub (needle : Line) : Line → Bool
  | [] => needle.isEmpty
  | c :: rest => needle.isPrefixOf (c :: rest) || containsSub needle rest

/-- Source `is_message(line, msg_number)`: true when the line contains the
message number, via Python's substring test. -/
def is_message (line msg_number : Line) : Bool :=
  containsSub msg_number line

/-- The characters Python's str.strip() removes. -/
def pyIsSpace (c : Char) : Bool :=
  c == ' ' || c == '\t' || c == '\n' || c == '\r' || c == '\x0b' || c == '\x0c'

/-- Python's str.strip(): drop whitespace from both ends. -/
def pyStrip (s : Line) : Line :=
  (s.dropWhile pyIsSpace).rdropWhile pyIsSpace

/-- Python's str.split(sep) for a one-character separator: split at every
occurrence, keeping empty fields. -/
def pySplit (sep : Char) (s : Line) : List Line :=
  List.splitOn sep s

/-- Python's s.split(sep)[-1]; split always yields a nonempty list, so the
default is never used. -/
def pyLastField (sep : Char) (s : Line) : Line :=
  (pySplit sep s).getLastD []

/-- Python's s.split(sep)[0]. -/
def pyHeadField (sep : Char) (s : Line) : Line :=
  (pySplit sep s).headD []

/-- Python's str.split() with no argument: split on whitespace runs,
dropping empty fields. -/
def pySplitWs (s : Line) : List Line :=
  (List.splitOnP pyIsSpace s).filter (fun t => !t.isEmpty)

/-- Python's str.find(c): index of the first occurrence, or -1. -/
def pyFind (c : Char) (s : Line) : Int :=
  match List.findIdx? (fun x => x == c) s with
  | some n => (n : Int)
  | none => -1

/-- Python's s[i:] slice, including the negative-index convention. -/
def pySliceFrom (s : Line) (i : Int) : Line :=
  if 0 ≤ i then s.drop i.toNat else s.drop ((s.length : Int) + i).toNat

/-- Python truthiness of a tristate: only True is truthy (None and False
are falsy). -/
def pyTruthy : Option Bool → Bool
  | some b => b
  | none => false

/-! ## Section-pair scanner (source: is_message_pair_in_logfile) -/

/-- One loop iteration of is_message_pair_in_logfile.  Mirrors the source:
if pair_found is None and the start message is in the line, set it to
False; then, if pair_found is falsy (None or False!) and the end message
is in the line, set it to True. -/
def pairStep (msg_start msg_end : Line) (pair_found : Option Bool) (line : Line) :
    Option Bool :=
  let pf := if pair_found == none && is_message line msg_start then some false
            else pair_found
  if !(pyTruthy pf) && is_message line msg_end then some true else pf

/-- Source is_message_pair_in_logfile: fold the per-line update over the
log, starting from None. -/
def is_message_pair_in_logfile (log : List Line) (msg_start msg_end : Line) :
    Option Bool :=
  log.foldl (pairStep msg_start msg_end) none

/-- Demonstration marker: a section-start message number. -/
def demoStart : Line := "MSGBLD0010".toList

/-- Demonstration marker: a section-end message number. -/
def demoEnd : Line := "MSGBLD0020".toList

/-- A one-line log containing only the end marker. -/
def demoLogEndOnly : List Line := [demoEnd]

/-! ## Python dictionaries as insertion-ordered association lists -/

/-- Lookup in an insertion-ordered association list (Python d[k] read). -/
def alistGet? {α : Type} (k : Line) : List (Line × α) → Option α
  | [] => none
  | (k', v) :: rest => if k = k' then some v else alistGet? k rest

/-- Python dict assignment d[k] = v: replace the value in place when the
key is present, append a fresh entry otherwise. -/
def alistSet {α : Type} (k : Line) (v : α) : List (Line × α) → List (Line × α)
  | [] => [(k, v)]
  | (k', v') :: rest =>
      if k = k' then (k, v) :: rest else (k', v') :: alistSet k v rest

/-- The key list of a dictionary (Python d.keys(), in insertion order). -/
def keysOf {α : Type} (d : List (Line × α)) : List Line :=
  d.map Prod.fst

/-- A per-file message table: message text mapped to occurrence count. -/
abbrev MsgTable := List (Line × Nat)

/-- A summary: file name mapped to its message table. -/
abbrev Summary := List (Line × MsgTable)

/-- The source idiom: if message not in d, set d[message] = 0; then
d[message] += 1. -/
def msgIncr (m : Line) (d : MsgTable) : MsgTable :=
  match alistGet? m d with
  | none => alistSet m 1 d
  | some n => alistSet m (n + 1) d

/-- Increment message m in the table of file f (the source mutates the
per-file dictionary that is aliased inside the summary; here we write the
updated table back at the same key). -/
def summIncr (f m : Line) (summ : Summary) : Summary :=
  alistSet f (msgIncr m ((alistGet? f summ).getD [])) summ

/-- Source number_of_msgs_for_file_in_summary: sum of the occurrence
counts in the file's table.  The source indexes summary[file_name]; it is
only ever called with a present key, so the [] default is never used
there. -/
def number_of_msgs_for_file_in_summary (file_name : Line) (summary : Summary) :
    Nat :=
  ((alistGet? file_name summary).getD []).foldl (fun acc p => acc + p.2) 0

/-- Source number_of_msgs_in_summary: 0 for None, otherwise the sum over
all keys of the per-file totals. -/
def number_of_msgs_in_summary : Option Summary → Nat
  | none => 0
  | some s =>
      (keysOf s).foldl (fun acc f => acc + number_of_msgs_for_file_in_summary f s) 0

/-! ## The four per-file message extractors

The source has four near-identical scanning loops (msg_summary_vera,
msg_summary_cppcheck, msg_summary_format, msg_summary_pep8) that differ
only in how an item line's message text is extracted and filtered.  We
embed the shared loop once, parameterized by that per-line extraction
(none = line filtered out, exactly the source's continue-without-counting
branches), and instantiate it four times. -/

/-- The file name a section-start line binds: its last space-separated
field, stripped. -/
def summ_file_of (line : Line) : Line :=
  pyStrip (pyLastField ' ' line)

/-- Scanner state of the per-file message-summary loops: the summary so
far (None until the first section start), the in-section flag, and the
file name of the current section. -/
structure SummState where
  all : Option Summary
  inSec : Bool
  current : Line

/-- One loop iteration of the per-file message-summary loops.  On a start
line (only when not already in a section): enter the section, bind the
file name to the line's last space-separated field stripped, install a
fresh empty table at that key (replacing any previous table for the same
file, as Python's dict.update does), and continue.  In a section, an item
line contributes its extracted message (if not filtered) and skips the
end-marker check; otherwise an end line leaves the section. -/
def summStep (extract : Line → Option Line) (msg_start msg_end msg_item : Line)
    (st : SummState) (line : Line) : SummState :=
  if !st.inSec && is_message line msg_start then
    { all := some (alistSet (summ_file_of line) [] (st.all.getD [])),
      inSec := true, current := summ_file_of line }
  else if st.inSec then
    if is_message line msg_item then
      match extract line with
      | none => st
      | some m => { st with all := some (summIncr st.current m (st.all.getD [])) }
    else if is_message line msg_end then { st with inSec := false }
    else st
  else st

/-- Fold of the message-summary loop over the log from the initial
state. -/
def summScan (extract : Line → Option Line) (log : List Line)
    (msg_start msg_end msg_item : Line) : SummState :=
  log.foldl (summStep extract msg_start msg_end msg_item) ⟨none, false, []⟩

/-- The shared shape of the four msg_summary_* functions: run the loop and
return the accumulated summary (None when no start marker was ever
seen). -/
def msg_summary (extract : Line → Option Line) (log : List Line)
    (msg_start msg_end msg_item : Line) : Option Summary :=
  (summScan extract log msg_start msg_end msg_item).all

/-- VERA++ message text: the line's last colon-separated field,
stripped. -/
def vera_message (line : Line) : Line :=
  pyStrip (pyLastField ':' line)

/-- VERA++ item lines are never filtered. -/
def extract_vera (line : Line) : Option Line :=
  some (vera_message line)

/-- The literal filter tokens of the cppcheck loop. -/
def checkingTok : Line := "Checking".toList

/-- The cppcheck known-false-positive filter token. -/
def neverUsedTok : Line := "is never used".toList

/-- The cppcheck informational-severity filter token. -/
def informationTok : Line := "(information)".toList

/-- Cppcheck message text: the slice of the line from the first opening
parenthesis onward (Python find returns -1 when absent, so the slice then
degenerates to the final character), stripped. -/
def cppcheck_message (line : Line) : Line :=
  pyStrip (pySliceFrom line (pyFind '(' line))

/-- Cppcheck item-line extraction with the source's three filters: lines
containing "Checking" are dropped, and extracted messages containing
"is never used" or "(information)" are dropped.  Note the last two filters
inspect the extracted message, not the whole line. -/
def extract_cppcheck (line : Line) : Option Line :=
  if containsSub checkingTok line then none
  else
    let message := cppcheck_message line
    if containsSub neverUsedTok message then none
    else if containsSub informationTok message then none
    else some message

/-- clang-format diff line text: the line's last colon-separated field,
stripped. -/
def format_message (line : Line) : Line :=
  pyStrip (pyLastField ':' line)

/-- clang-format item lines are never filtered. -/
def extract_format (line : Line) : Option Line :=
  some (format_message line)

/-- PEP8 message text: the line's last colon-separated field, stripped. -/
def pep8_message (line : Line) : Line :=
  pyStrip (pyLastField ':' line)

/-- PEP8 item lines are never filtered. -/
def extract_pep8 (line : Line) : Option Line :=
  some (pep8_message line)

/-- Source msg_summary_vera. -/
def msg_summary_vera (log : List Line) (msg_start msg_end msg_item : Line) :
    Option Summary :=
  msg_summary extract_vera log msg_start msg_end msg_item

/-- Source msg_summary_cppcheck. -/
def msg_summary_cppcheck (log : List Line) (msg_start msg_end msg_item : Line) :
    Option Summary :=
  msg_summary extract_cppcheck log msg_start msg_end msg_item

/-- Source msg_summary_format. -/
def msg_summary_format (log : List Line) (msg_start msg_end msg_item : Line) :
    Option Summary :=
  msg_summary extract_format log msg_start msg_end msg_item

/-- Source msg_summary_pep8. -/
def msg_summary_pep8 (log : List Line) (msg_start msg_end msg_item : Line) :
    Option Summary :=
  msg_summary extract_pep8 log msg_start msg_end msg_item

/-! ## Changed-files extractor (source: list_of_changed_files) -/

/-- The filename extraction the source applies to an item line:
line.split(' ')[-1].strip(), i.e. the last single-space-separated field,
stripped of surrounding whitespace. -/
def changed_file_of (line : Line) : Line :=
  pyStrip (pyLastField ' ' line)

/-- Scanner state of the changed-files loop: the in-section flag, the
collected entries, and the early-return flag (the source returns from
inside the loop at the section-end marker). -/
structure ChangedState where
  inSec : Bool
  files : List Line
  done : Bool

/-- One loop iteration of list_of_changed_files, parameterized by the
function applied to a contributing item line (the source applies
changed_file_of; the identity instance below recovers the raw item
lines).  A start line (only when not in the section) enters the section
and is not itself scanned for items; in the section an item line
contributes and skips the end check; an end line stops the whole scan. -/
def changedStepWith (ex : Line → Line) (msg_start msg_end msg_item : Line)
    (st : ChangedState) (line : Line) : ChangedState :=
  if st.done then st
  else if !st.inSec && is_message line msg_start then { st with inSec := true }
  else if st.inSec then
    if is_message line msg_item then { st with files := st.files ++ [ex line] }
    else if is_message line msg_end then { st with done := true }
    else st
  else st

/-- Source list_of_changed_files: an empty list unless the section pair is
Completed (the source tests `if not is_message_pair_in_logfile(...)`, so
None and False both bail out), otherwise the scan's collected entries. -/
def list_of_changed_files (log : List Line) (msg_start msg_end msg_item : Line) :
    List Line :=
  if !(pyTruthy (is_message_pair_in_logfile log msg_start msg_end)) then []
  else (log.foldl (changedStepWith changed_file_of msg_start msg_end msg_item)
    ⟨false, [], false⟩).files

/-- The item lines that contribute to the changed-files list, in order:
the same scan collecting the raw lines. -/
def changed_item_lines (log : List Line) (msg_start msg_end msg_item : Line) :
    List Line :=
  (log.foldl (changedStepWith id msg_start msg_end msg_item)
    ⟨false, [], false⟩).files

/-- The claim's reading of the extraction, following the spec's words:
the last whitespace-delimited token of the line, trimmed of surrounding
whitespace. -/
def spec_last_ws_token (line : Line) : Line :=
  pyStrip ((pySplitWs line).getLastD [])

/-- The changed-files section-start marker used in the CLI entry point. -/
def cfStart : Line := "MSGBLD0070".toList

/-- The changed-files section-end marker used in the CLI entry point. -/
def cfEnd : Line := "MSGBLD0100".toList

/-- The changed-files item marker used in the CLI entry point. -/
def cfItem : Line := "MSGBLD0095".toList

/-- An item line whose last space-separated field contains a tab. -/
def cfTabLine : Line := "MSGBLD0095 a\tb".toList

/-- A completed changed-files section around the tab item line. -/
def cfDemoLog : List Line := [cfStart, cfTabLine, cfEnd]

/-- What the code extracts from the tab line. -/
def cfCodeToken : Line := "a\tb".toList

/-- The last whitespace-delimited token of the tab line. -/
def cfSpecToken : Line := "b".toList

/-! ## Build section extractor (source: makebuild_summary) -/

/-- A per-file error/warning count table. -/
abbrev ErrTable := List (Line × Nat)

/-- The build-error line marker. -/
def errorTok : Line := ": error:".toList

/-- The build-warning line marker. -/
def warningTok : Line := ": warning:".toList

/-- The 5-tuple makebuild_summary returns: status, error count, error
table, warning count, warning table (each may be Python None). -/
abbrev MakeResult :=
  Option Bool × Option Nat × Option ErrTable × Option Nat × Option ErrTable

/-- Scanner state of the makebuild_summary loop.  The result field models
the source's early return from inside the loop. -/
structure MakeState where
  error_summary : Option ErrTable
  warning_summary : Option ErrTable
  nErr : Nat
  nWarn : Nat
  inSec : Bool
  result : Option MakeResult

/-- One loop iteration of makebuild_summary.  Mirrors the source exactly:
the start-marker branch has no continue (the start line itself is scanned
for error/warning substrings and even for the end marker), the
error/warning branches key their tables by the text before the line's
first colon, and — notably — the end-marker branch is NOT guarded by the
in-section flag, so an end marker returns even if the section never
started (with the summaries still None and the counts still 0). -/
def makebuildStep (msg_start msg_end : Line) (st : MakeState) (line : Line) :
    MakeState :=
  if st.result.isSome then st
  else
    let st1 := if is_message line msg_start then
        { st with inSec := true, error_summary := some [],
                  warning_summary := some [] }
      else st
    let st2 := if st1.inSec then
        let stE := if containsSub errorTok line then
            { st1 with
                error_summary :=
                  some (msgIncr (pyHeadField ':' line) (st1.error_summary.getD [])),
                nErr := st1.nErr + 1 }
          else st1
        if containsSub warningTok line then
          { stE with
              warning_summary :=
                some (msgIncr (pyHeadField ':' line) (stE.warning_summary.getD [])),
              nWarn := stE.nWarn + 1 }
        else stE
      else st1
    if is_message line msg_end then
      { st2 with
          result := some (if st2.nErr == 0 then
              (some true, some st2.nErr, st2.error_summary,
               some st2.nWarn, st2.warning_summary)
            else
              (some false, some st2.nErr, st2.error_summary,
               some st2.nWarn, st2.warning_summary)) }
    else st2

/-- Source makebuild_summary: fold the loop; if the loop returned early
that value stands, otherwise the all-None tuple. -/
def makebuild_summary (log : List Line) (msg_start msg_end : Line) : MakeResult :=
  match (log.foldl (makebuildStep msg_start msg_end)
      ⟨none, none, 0, 0, false, none⟩).result with
  | some r => r
  | none => (none, none, none, none, none)

/-- A marker-free demonstration line. -/
def demoPlainLine : Line := "hello world".toList

/-! ## Test-suite extractor (source: testsuite_results)

This is the one loop with fallible operations: int() on the trailing
token of the "Total number of tests:" line can raise ValueError, and
indexing [0] into the digit-token list of a "Failed" line can raise
IndexError.  We model them with Except. -/

/-- Numeric value of a list of decimal digits. -/
def digitsVal (s : Line) : Nat :=
  s.foldl (fun a c => a * 10 + (c.toNat - 48)) 0

/-- Python str.isdigit() (ASCII fragment): nonempty and all digits. -/
def pyIsDigitStr (s : Line) : Bool :=
  !s.isEmpty && s.all Char.isDigit

/-- Python int(s) on a string: strip whitespace, allow one sign, then
require a nonempty run of digits; None models the ValueError. -/
def pyInt? (s : Line) : Option Int :=
  match pyStrip s with
  | [] => none
  | c :: rest =>
      if c == '-' then
        if pyIsDigitStr rest then some (-(digitsVal rest : Int)) else none
      else if c == '+' then
        if pyIsDigitStr rest then some (digitsVal rest) else none
      else if pyIsDigitStr (c :: rest) then some (digitsVal (c :: rest)) else none

/-- The exceptions the source can raise while parsing numbers. -/
inductive PyError where
  | valueError
  | indexError
deriving DecidableEq

/-- The literal results banner matched with line.strip() equality. -/
def testsuiteBanner : Line := "NEST Testsuite Summary".toList

/-- The total-tests label substring. -/
def totalTok : Line := "Total number of tests:".toList

/-- The failed-tests label substring. -/
def failedTok : Line := "Failed".toList

/-- Scanner state of the testsuite_results loop. -/
structure TestState where
  inCheck : Bool
  inResults : Bool
  total : Option Int
  failed : Option Nat
  status : Option Bool
  done : Bool

/-- A line containing the total label parses its last space-separated
field with int(); ValueError when it is not an integer literal. -/
def parseTotal (st : TestState) (line : Line) : Except PyError TestState :=
  if containsSub totalTok line then
    match pyInt? (pyLastField ' ' line) with
    | none => Except.error PyError.valueError
    | some n => Except.ok { st with total := some n }
  else Except.ok st

/-- A line containing "Failed" takes the value of the first all-digit
whitespace token; IndexError when there is none. -/
def parseFailed (st : TestState) (line : Line) : Except PyError TestState :=
  if containsSub failedTok line then
    match (pySplitWs line).filter pyIsDigitStr with
    | [] => Except.error PyError.indexError
    | tok :: _ => Except.ok { st with failed := some (digitsVal tok) }
  else Except.ok st

/-- The in-results parsing of one line: total first, then failed, in
source order. -/
def testParseLine (st : TestState) (line : Line) : Except PyError TestState :=
  if st.inResults then
    match parseTotal st line with
    | Except.error err => Except.error err
    | Except.ok stT => parseFailed stT line
  else Except.ok st

/-- The part of the loop body that runs once the in-check flag holds:
parse the (possibly just-entered) results section, then honor the end
marker — computing the status from the current failed count (Python's
None == 0 is False) and breaking out of the loop, modelled by the done
flag freezing the state. -/
def testStepCheck (msg_end : Line) (st2 : TestState) (line : Line) :
    Except PyError TestState :=
  match testParseLine st2 line with
  | Except.error err => Except.error err
  | Except.ok st3 =>
      if is_message line msg_end then
        Except.ok { st3 with status := some (st3.failed == some 0), done := true }
      else Except.ok st3

/-- The loop body once the done flag is not yet set, taking the state
after the start-marker branch: in check, a line whose strip equals the
banner raises the in-results flag (and is itself parsed). -/
def testStepNotDone (msg_end : Line) (st1 : TestState) (line : Line) :
    Except PyError TestState :=
  if st1.inCheck then
    testStepCheck msg_end
      (if pyStrip line == testsuiteBanner then { st1 with inResults := true }
       else st1) line
  else Except.ok st1

/-- One loop iteration of testsuite_results.  A start line raises the
in-check flag (and is itself processed further). -/
def testStep (msg_start msg_end : Line) (st : TestState) (line : Line) :
    Except PyError TestState :=
  if st.done then Except.ok st
  else testStepNotDone msg_end
    (if is_message line msg_start then { st with inCheck := true } else st) line

/-- Fold of the testsuite loop over the log, propagating exceptions. -/
def testScan (log : List Line) (msg_start msg_end : Line) :
    Except PyError TestState :=
  log.foldl (fun acc line => acc.bind (fun st => testStep msg_start msg_end st line))
    (Except.ok ⟨false, false, none, none, none, false⟩)

/-- Source testsuite_results: the (status, total, failed) triple of the
final scan state, or the exception the scan raised. -/
def testsuite_results (log : List Line) (msg_start msg_end : Line) :
    Except PyError (Option Bool × Option Int × Option Nat) :=
  (testScan log msg_start msg_end).map (fun st => (st.status, st.total, st.failed))

/-- The status/failed invariant of the testsuite scan: before the break
the status is still None, and once set, the status is True exactly when
the recorded failed count is 0. -/
def TestInv (st : TestState) : Prop :=
  (st.done = false → st.status = none)
    ∧ (∀ b, st.status = some b → (b = true ↔ st.failed = some 0))

/-- The testsuite section-start marker used in the CLI entry point. -/
def tsStart : Line := "MSGBLD0290".toList

/-- The testsuite section-end marker used in the CLI entry point. -/
def tsEnd : Line := "MSGBLD0300".toList

/-- A minimal complete testsuite section: start marker, then end marker. -/
def tsDemoLog : List Line := [tsStart, tsEnd]

/-- The scan state tsDemoLog ends in: checked, not in results, no counts,
status False (failed is still None and None == 0 is False), done. -/
def tsDemoState : TestState := ⟨true, false, none, none, some false, true⟩

/-! ## Exit code (source: build_return_code) -/

/-- Source build_return_code.  The vera and clang-format initialization
statuses may be True or None; configure, make, make install and the test
suite must be truthy (strictly True); and all four message-table totals —
including the cppcheck one, despite the deactivation comment in the
source — must be zero.  Only then 0, else 1.  The cppcheck
initialization status parameter is accepted and ignored (its check is the
one line the deactivation actually removed). -/
def build_return_code (status_vera_init status_cppcheck_init status_format_init
    status_cmake_configure status_make status_make_install
    status_tests : Option Bool)
    (summary_vera summary_cppcheck summary_format summary_pep8 : Option Summary) :
    Nat :=
  if ((status_vera_init == none || pyTruthy status_vera_init)
      && (status_format_init == none || pyTruthy status_format_init)
      && pyTruthy status_cmake_configure
      && pyTruthy status_make
      && pyTruthy status_make_install
      && pyTruthy status_tests
      && (number_of_msgs_in_summary summary_vera == 0)
      && (number_of_msgs_in_summary summary_cppcheck == 0)
      && (number_of_msgs_in_summary summary_format == 0)
      && (number_of_msgs_in_summary summary_pep8 == 0)) then 0 else 1

/-- A demonstration source file name. -/
def demoFileName : Line := "foo.cpp".toList

/-- A demonstration cppcheck message text. -/
def demoCppMsg : Line := "(error) something".toList

/-- A cppcheck summary holding exactly one message occurrence. -/
def demoCppSummary : Summary := [(demoFileName, [(demoCppMsg, 1)])]

/-! ## Demonstration data for the cppcheck filters -/

/-- The cppcheck section-start marker used in the CLI entry point. -/
def ccStart : Line := "MSGBLD0150".toList

/-- The cppcheck section-end marker used in the CLI entry point. -/
def ccEnd : Line := "MSGBLD0160".toList

/-- The cppcheck item marker used in the CLI entry point. -/
def ccItem : Line := "MSGBLD0155".toList

/-- A cppcheck section-start line naming foo.cpp. -/
def ccStartLine : Line := "MSGBLD0150 foo.cpp".toList

/-- A cppcheck item line carrying "is never used" BEFORE the first
opening parenthesis, so the extracted message "(style) x" does not
contain it. -/
def ccBadLine : Line := "MSGBLD0155 is never used (style) x".toList

/-- A log opening a cppcheck section followed by the item line above. -/
def ccDemoLog : List Line := [ccStartLine, ccBadLine]

/-! ## Counting (claim C5) -/

/-- The count a summary maps (file, message) to, 0 when either key is
absent (or the summary is None). -/
def summCountOpt (f m : Line) (o : Option Summary) : Nat :=
  (alistGet? m ((alistGet? f (o.getD [])).getD [])).getD 0

/-- State of the spec-side occurrence counter. -/
structure OpenCountState where
  inSec : Bool
  current : Line
  count : Nat

/-- Modelled from the spec: one step of counting "item lines inside F's
open section(s) that yield message text M".  The section dynamics
(entering at a start line, leaving at an end line, item lines skipping
the end check) mirror the extractor loop; instead of building a table it
increments a counter whenever the current section belongs to F and the
line's extracted message is M. -/
def openCountStep (extract : Line → Option Line) (msg_start msg_end msg_item : Line)
    (f m : Line) (st : OpenCountState) (line : Line) : OpenCountState :=
  if !st.inSec && is_message line msg_start then
    { st with inSec := true, current := summ_file_of line }
  else if st.inSec then
    if is_message line msg_item then
      match extract line with
      | none => st
      | some msg =>
          if st.current = f ∧ msg = m then { st with count := st.count + 1 }
          else st
    else if is_message line msg_end then { st with inSec := false }
    else st
  else st

/-- Modelled from the spec: the number of item lines inside F's open
section(s) whose extracted message text is M. -/
def open_item_count (extract : Line → Option Line) (log : List Line)
    (msg_start msg_end msg_item f m : Line) : Nat :=
  (log.foldl (openCountStep extract msg_start msg_end msg_item f m)
    ⟨false, [], 0⟩).count

/-! ## Demonstration data for the counting claim -/

/-- The vera section-start marker used in the CLI entry point. -/
def vStart : Line := "MSGBLD0130".toList

/-- The vera section-end marker used in the CLI entry point. -/
def vEnd : Line := "MSGBLD0140".toList

/-- The vera item marker used in the CLI entry point. -/
def vItem : Line := "MSGBLD0135".toList

/-- A vera section-start line naming f.cpp. -/
def vStartLine : Line := "MSGBLD0130 f.cpp".toList

/-- A vera item line whose message text is "msg". -/
def vItemLine1 : Line := "MSGBLD0135 f.cpp:3: msg".toList

/-- Another vera item line with the same message text "msg". -/
def vItemLine2 : Line := "MSGBLD0135 f.cpp:7: msg".toList

/-- A vera section-end line. -/
def vEndLine : Line := "MSGBLD0140".toList

/-- A log in which f.cpp's vera section is opened twice, with one "msg"
item line in each section. -/
def vDemoLog : List Line :=
  [vStartLine, vItemLine1, vEndLine, vStartLine, vItemLine2, vEndLine]

/-- The file key of the demo log. -/
def vFile : Line := "f.cpp".toList

/-- The message key of the demo log. -/
def vMsg : Line := "msg".toList

/-- A single-section demo log with both "msg" item lines in one
section. -/
def vDemoLogOnce : List Line := [vStartLine, vItemLine1, vItemLine2, vEndLine]

/-! ## Per-file report tables (source: code_analysis_per_file_tables) -/

/-- str(count) for a table row. -/
def pyStr (n : Nat) : Line :=
  (Nat.repr n).toList

/-- The VERA++ block label row text. -/
def veraLabel : Line := "VERA++ (MSGBLD0135):".toList

/-- The Cppcheck block label row text. -/
def cppLabel : Line := "Cppcheck (MSGBLD0155):".toList

/-- The clang-format block label row text. -/
def formatLabel : Line := "clang-format (MSGBLD0175):".toList

/-- The PEP8 block label row text. -/
def pep8Label : Line := "PEP8 (MSGBLD0195):".toList

/-- The Count column header. -/
def countLabel : Line := "Count".toList

/-- The decoration before a file name in a block header. -/
def filePlus : Line := "+ + + ".toList

/-- The decoration after a file name in a block header. -/
def plusSuffix : Line := " + + +".toList

/-- The message the failed assert raises. -/
def assertionError : Line := "AssertionError".toList

/-- The [str(message), str(count)] rows of one file's table, in the
table's iteration order. -/
def msgRows (t : MsgTable) : List (Line × Line) :=
  t.map (fun p => (p.1, pyStr p.2))

/-- One file's rendered block in the vera/cppcheck/clang-format part:
header row, then per-tool label and message rows for each tool with a
positive count; none (the empty string in the source) when all three
counts are zero. -/
def fileBlock (file : Line) (sv sc sf : Summary) : Option (List (Line × Line)) :=
  if number_of_msgs_for_file_in_summary file sv > 0
      || number_of_msgs_for_file_in_summary file sc > 0
      || number_of_msgs_for_file_in_summary file sf > 0 then
    some ((filePlus ++ file ++ plusSuffix, ([] : Line)) ::
      ((if number_of_msgs_for_file_in_summary file sv > 0 then
          (veraLabel, countLabel) :: msgRows ((alistGet? file sv).getD [])
        else []) ++
       (if number_of_msgs_for_file_in_summary file sc > 0 then
          (cppLabel, countLabel) :: msgRows ((alistGet? file sc).getD [])
        else []) ++
       (if number_of_msgs_for_file_in_summary file sf > 0 then
          (formatLabel, countLabel) :: msgRows ((alistGet? file sf).getD [])
        else [])))
  else none

/-- One file's rendered block in the PEP8 part. -/
def pep8Block (p : Summary) (file : Line) : Option (List (Line × Line)) :=
  if number_of_msgs_for_file_in_summary file p > 0 then
    some ((filePlus ++ file ++ plusSuffix, ([] : Line)) ::
      (pep8Label, countLabel) :: msgRows ((alistGet? file p).getD []))
  else none

/-- Source code_analysis_per_file_tables.  When the vera, cppcheck and
clang-format summaries are all non-None, the source asserts that
summary_format.keys() equals summary_cppcheck.keys() and then that it
equals summary_vera.keys(); a failed assert is the error case.  The
source is Python 2, where .keys() lists a dict in hash-slot order: a
function of the key set alone (insertion order does not influence it,
absent hash collisions).  So the observable value of the asserted list
comparison is key-set equality, and — dictionary key lists being
duplicate-free — we embed it as equality of the key multisets.  When any
summary is None that part is skipped.  The PEP8 part renders regardless.
The external text-table renderer is out of scope per the spec (§6: the
core only supplies rows), so the result is the list of per-file row
blocks handed to it, enumerated in the embedding's key order (the
implementation-defined keys() iteration order is outside the claims'
scope). -/
def code_analysis_per_file_tables
    (summary_vera summary_cppcheck summary_format summary_pep8 : Option Summary) :
    Except Line (List (List (Line × Line))) :=
  match summary_vera, summary_cppcheck, summary_format with
  | some sv, some sc, some sf =>
      if (keysOf sf : Multiset Line) ≠ (keysOf sc : Multiset Line) then
        Except.error assertionError
      else if (keysOf sf : Multiset Line) ≠ (keysOf sv : Multiset Line) then
        Except.error assertionError
      else
        Except.ok ((keysOf sf).filterMap (fun file => fileBlock file sv sc sf)
          ++ (match summary_pep8 with
              | none => []
              | some p => (keysOf p).filterMap (pep8Block p)))
  | _, _, _ =>
      Except.ok (match summary_pep8 with
        | none => []
        | some p => (keysOf p).filterMap (pep8Block p))

/-- A cppcheck item line carrying "(information)" (after some noise). -/
def ccInfoLine : Line := "MSGBLD0155 junk (information) y".toList

/-! ## Theorems -/

/-! ## Theorems -/

theorem pairStep_none_of_no_marker (s e x : Line)
    (hs : is_message x s = false) (he : is_message x e = false) :
    pairStep s e none x = none := by
  simp [pairStep, hs, he, pyTruthy]

theorem pairStep_true_absorb (s e x : Line) :
    pairStep s e (some true) x = some true := by
  simp [pairStep, pyTruthy]

theorem pair_fold_none (s e : Line) (pre : List Line)
    (h : ∀ x ∈ pre, is_message x s = false ∧ is_message x e = false) :
    pre.foldl (pairStep s e) none = none := by
  induction pre with
  | nil => rfl
  | cons x rest ih =>
      have hx := h x (by simp)
      have hrest : ∀ y ∈ rest, is_message y s = false ∧ is_message y e = false :=
        fun y hy => h y (by simp [hy])
      simp only [List.foldl_cons, pairStep_none_of_no_marker s e x hx.1 hx.2]
      exact ih hrest

theorem pair_fold_true (s e : Line) (post : List Line) :
    post.foldl (pairStep s e) (some true) = some true := by
  induction post with
  | nil => rfl
  | cons x rest ih => simpa [pairStep_true_absorb] using ih

/-- C10: a single line carrying both the start and the end marker, with
neither marker on any earlier line, closes the section it opens: the
scanner returns Completed (True).  In the source, the line first flips
pair_found from None to False via the start branch, and the same
iteration's end branch then flips it to True. -/
theorem single_line_with_both_markers_completes
    (pre post : List Line) (l s e : Line)
    (hpre : ∀ x ∈ pre, is_message x s = false ∧ is_message x e = false)
    (hs : is_message l s = true) (he : is_message l e = true) :
    is_message_pair_in_logfile (pre ++ l :: post) s e = some true := by
  unfold is_message_pair_in_logfile
  rw [List.foldl_append, pair_fold_none s e pre hpre]
  have hstep : pairStep s e none l = some true := by
    simp [pairStep, hs, he, pyTruthy]
  simp only [List.foldl_cons, hstep]
  exact pair_fold_true s e post

/-- Witness for C10 at a concrete log: the single line carries both
markers and the scanner returns Completed. -/
theorem single_line_with_both_markers_completes_witness :
    is_message_pair_in_logfile [demoStart ++ demoEnd] demoStart demoEnd
      = some true :=
  single_line_with_both_markers_completes [] [] (demoStart ++ demoEnd)
    demoStart demoEnd (by intro x hx; cases hx) (by decide) (by decide)

/-- C2 (code bug in the source): on a log whose only line contains the end
marker and no line contains the start marker, is_message_pair_in_logfile
returns True, not None.  The docstring of the function promises None when
the first message is absent, and the spec says an end marker before any
start marker is ignored; but the source guard `if not pair_found` treats
the initial None as falsy, so the end branch fires without any start. -/
theorem end_without_start_yields_true :
    is_message_pair_in_logfile demoLogEndOnly demoStart demoEnd = some true
      ∧ (demoLogEndOnly.all fun l => !(is_message l demoStart)) = true := by
  decide

theorem summStep_all_ne_none (extract : Line → Option Line) (s e i line : Line)
    (st : SummState) (h : st.all ≠ none) :
    (summStep extract s e i st line).all ≠ none := by
  unfold summStep
  split
  · simp
  · split
    · split
      · split
        · exact h
        · simp
      · split
        · exact h
        · exact h
    · exact h

theorem summFold_all_ne_none (extract : Line → Option Line) (s e i : Line)
    (log : List Line) :
    ∀ st : SummState, st.all ≠ none →
      (log.foldl (summStep extract s e i) st).all ≠ none := by
  induction log with
  | nil => intro st h; exact h
  | cons l rest ih =>
      intro st h
      exact ih _ (summStep_all_ne_none extract s e i l st h)

theorem summStep_no_start (extract : Line → Option Line) (s e i line : Line)
    (st : SummState) (hsec : st.inSec = false) (hs : is_message line s = false) :
    summStep extract s e i st line = st := by
  unfold summStep
  simp [hs, hsec]

theorem summFold_none_iff (extract : Line → Option Line) (s e i : Line)
    (log : List Line) :
    ∀ st : SummState, st.all = none → st.inSec = false →
      ((log.foldl (summStep extract s e i) st).all = none
        ↔ ∀ l ∈ log, is_message l s = false) := by
  induction log with
  | nil => intro st h _; simp [h]
  | cons l rest ih =>
      intro st hall hsec
      cases hs : is_message l s with
      | true =>
          constructor
          · intro hres
            exfalso
            have hstep : (summStep extract s e i st l).all ≠ none := by
              unfold summStep
              simp [hs, hsec]
            exact summFold_all_ne_none extract s e i rest _ hstep
              (by simpa using hres)
          · intro hforall
            exact absurd (hforall l (by simp)) (by simp [hs])
      | false =>
          rw [List.foldl_cons, summStep_no_start extract s e i l st hsec hs,
            ih st hall hsec]
          simp [List.forall_mem_cons, hs]

theorem msg_summary_none_iff (extract : Line → Option Line) (log : List Line)
    (s e i : Line) :
    msg_summary extract log s e i = none ↔ ∀ l ∈ log, is_message l s = false :=
  summFold_none_iff extract s e i log ⟨none, false, []⟩ rfl rfl

/-- C3: for each of the four per-file message extractors, the result is
None exactly when the outer start marker occurs in no line of the log; in
particular, when the start marker does occur the result is a (possibly
empty) summary, and when it does not, the result is None rather than an
empty table.  (The embedded functions are total, so no exception can be
raised.) -/
theorem extractors_none_iff_no_start (log : List Line)
    (msg_start msg_end msg_item : Line) :
    (msg_summary_vera log msg_start msg_end msg_item = none
        ↔ ∀ l ∈ log, is_message l msg_start = false)
    ∧ (msg_summary_cppcheck log msg_start msg_end msg_item = none
        ↔ ∀ l ∈ log, is_message l msg_start = false)
    ∧ (msg_summary_format log msg_start msg_end msg_item = none
        ↔ ∀ l ∈ log, is_message l msg_start = false)
    ∧ (msg_summary_pep8 log msg_start msg_end msg_item = none
        ↔ ∀ l ∈ log, is_message l msg_start = false) :=
  ⟨msg_summary_none_iff extract_vera log msg_start msg_end msg_item,
   msg_summary_none_iff extract_cppcheck log msg_start msg_end msg_item,
   msg_summary_none_iff extract_format log msg_start msg_end msg_item,
   msg_summary_none_iff extract_pep8 log msg_start msg_end msg_item⟩

/-- Witness for C3 at a concrete log: the one-line demo log contains no
occurrence of the start marker, so the extractors return None there. -/
theorem extractors_none_iff_no_start_witness :
    msg_summary_vera demoLogEndOnly demoStart demoEnd demoEnd = none :=
  (extractors_none_iff_no_start demoLogEndOnly demoStart demoEnd demoEnd).1.mpr
    (by decide)

theorem changedStepWith_map (ex : Line → Line) (s e i line : Line)
    (b d : Bool) (ls : List Line) :
    changedStepWith ex s e i ⟨b, ls.map ex, d⟩ line
      = { inSec := (changedStepWith id s e i ⟨b, ls, d⟩ line).inSec,
          files := ((changedStepWith id s e i ⟨b, ls, d⟩ line).files).map ex,
          done := (changedStepWith id s e i ⟨b, ls, d⟩ line).done } := by
  unfold changedStepWith
  split
  · simp
  · split
    · simp
    · split
      · split
        · simp
        · split
          · simp
          · simp
      · simp

theorem changedFold_map (ex : Line → Line) (s e i : Line) (log : List Line) :
    ∀ (b d : Bool) (ls : List Line),
      (log.foldl (changedStepWith ex s e i) ⟨b, ls.map ex, d⟩).files
        = ((log.foldl (changedStepWith id s e i) ⟨b, ls, d⟩).files).map ex := by
  induction log with
  | nil => intro b d ls; rfl
  | cons l rest ih =>
      intro b d ls
      rw [List.foldl_cons, List.foldl_cons, changedStepWith_map]
      exact ih _ _ _

/-- C9, amended: list_of_changed_files returns the empty list for every
log whose changed-files section pair is not Completed; otherwise it
returns, in order of appearance and without deduplication, one entry per
contributing item line, each entry being the line's last
single-space-separated field trimmed of surrounding whitespace (the
source's line.split(' ')[-1].strip(), which differs from the last
whitespace-delimited token on lines with tabs or trailing spaces). -/
theorem list_of_changed_files_characterization (log : List Line)
    (msg_start msg_end msg_item : Line) :
    (is_message_pair_in_logfile log msg_start msg_end ≠ some true →
        list_of_changed_files log msg_start msg_end msg_item = [])
    ∧ (is_message_pair_in_logfile log msg_start msg_end = some true →
        list_of_changed_files log msg_start msg_end msg_item
          = (changed_item_lines log msg_start msg_end msg_item).map
              changed_file_of) := by
  constructor
  · intro h
    unfold list_of_changed_files
    have : pyTruthy (is_message_pair_in_logfile log msg_start msg_end) = false := by
      cases hp : is_message_pair_in_logfile log msg_start msg_end with
      | none => rfl
      | some b =>
          cases b with
          | false => rfl
          | true => exact absurd hp h
    simp [this]
  · intro h
    unfold list_of_changed_files changed_item_lines
    rw [h]
    simpa using changedFold_map changed_file_of msg_start msg_end msg_item log
      false false []

/-- Counterexample to C9 as stated: in a Completed section, the item line
"MSGBLD0095 a<tab>b" contributes "a<tab>b" (the last space-separated
field), not its last whitespace-delimited token "b". -/
theorem changed_files_not_last_ws_token :
    list_of_changed_files cfDemoLog cfStart cfEnd cfItem = [cfCodeToken]
      ∧ spec_last_ws_token cfTabLine = cfSpecToken
      ∧ cfCodeToken ≠ cfSpecToken := by
  decide

/-- Witness for the amended C9 at a concrete log: the demo section pair is
Completed and the result is the per-item-line extraction, in order. -/
theorem list_of_changed_files_characterization_witness :
    list_of_changed_files cfDemoLog cfStart cfEnd cfItem
      = (changed_item_lines cfDemoLog cfStart cfEnd cfItem).map
          changed_file_of :=
  (list_of_changed_files_characterization cfDemoLog cfStart cfEnd cfItem).2
    (by decide)

/-- Counterexample to C4 as stated: on a log whose only line contains the
end marker and no line contains the start marker, makebuild_summary does
NOT return the all-None tuple — the unguarded end-marker branch returns
(True, 0, None, 0, None). -/
theorem makebuild_end_without_start_not_all_none :
    makebuild_summary demoLogEndOnly demoStart demoEnd
        = (some true, some 0, none, some 0, none)
      ∧ (demoLogEndOnly.all fun l => !(is_message l demoStart)) = true :=
  ⟨rfl, by decide⟩

theorem makebuildStep_no_marker (msg_start msg_end line : Line) (st : MakeState)
    (hres : st.result = none) (hsec : st.inSec = false)
    (hs : is_message line msg_start = false)
    (he : is_message line msg_end = false) :
    makebuildStep msg_start msg_end st line = st := by
  unfold makebuildStep
  simp [hres, hsec, hs, he]

/-- C4, amended: makebuild_summary returns the all-None tuple for every
log in which neither the build-section start marker nor the end marker
occurs in any line.  (The original claim, all-None whenever the start
marker is absent regardless of the end marker, is refuted above: an end
marker alone triggers the unguarded early return.) -/
theorem makebuild_all_none_of_no_markers (log : List Line)
    (msg_start msg_end : Line)
    (h : ∀ l ∈ log, is_message l msg_start = false
          ∧ is_message l msg_end = false) :
    makebuild_summary log msg_start msg_end = (none, none, none, none, none) := by
  unfold makebuild_summary
  have hfold : log.foldl (makebuildStep msg_start msg_end)
      ⟨none, none, 0, 0, false, none⟩ = ⟨none, none, 0, 0, false, none⟩ := by
    induction log with
    | nil => rfl
    | cons l rest ih =>
        have hl := h l (by simp)
        rw [List.foldl_cons,
          makebuildStep_no_marker msg_start msg_end l _ rfl rfl hl.1 hl.2]
        exact ih (fun y hy => h y (by simp [hy]))
  rw [hfold]

/-- Witness for the amended C4 at a concrete log with no markers. -/
theorem makebuild_all_none_of_no_markers_witness :
    makebuild_summary [demoPlainLine] demoStart demoEnd
      = (none, none, none, none, none) :=
  makebuild_all_none_of_no_markers [demoPlainLine] demoStart demoEnd
    (by decide)

theorem setInCheck_fields (st : TestState) (c : Bool) :
    ((if c = true then { st with inCheck := true } else st) : TestState).status
        = st.status
      ∧ ((if c = true then { st with inCheck := true } else st) : TestState).done
        = st.done := by
  cases c <;> simp

theorem setInResults_fields (st : TestState) (c : Bool) :
    ((if c = true then { st with inResults := true } else st) : TestState).status
        = st.status
      ∧ ((if c = true then { st with inResults := true } else st) : TestState).done
        = st.done := by
  cases c <;> simp

theorem parseTotal_ok (st st' : TestState) (line : Line)
    (h : parseTotal st line = Except.ok st') :
    st'.status = st.status ∧ st'.done = st.done ∧ st'.inCheck = st.inCheck := by
  unfold parseTotal at h
  split at h
  · split at h
    · cases h
    · cases h
      exact ⟨rfl, rfl, rfl⟩
  · cases h
    exact ⟨rfl, rfl, rfl⟩

theorem parseFailed_ok (st st' : TestState) (line : Line)
    (h : parseFailed st line = Except.ok st') :
    st'.status = st.status ∧ st'.done = st.done ∧ st'.inCheck = st.inCheck := by
  unfold parseFailed at h
  split at h
  · split at h
    · cases h
    · cases h
      exact ⟨rfl, rfl, rfl⟩
  · cases h
    exact ⟨rfl, rfl, rfl⟩

theorem testParseLine_ok (st st' : TestState) (line : Line)
    (h : testParseLine st line = Except.ok st') :
    st'.status = st.status ∧ st'.done = st.done ∧ st'.inCheck = st.inCheck := by
  unfold testParseLine at h
  split at h
  · split at h
    · cases h
    · rename_i stT heq
      have h1 := parseTotal_ok st stT line heq
      have h2 := parseFailed_ok stT st' line h
      exact ⟨h2.1.trans h1.1, h2.2.1.trans h1.2.1, h2.2.2.trans h1.2.2⟩
  · cases h
    exact ⟨rfl, rfl, rfl⟩

theorem testStepCheck_shape (msg_end line : Line) (st2 st' : TestState)
    (h : testStepCheck msg_end st2 line = Except.ok st') :
    (st'.status = st2.status ∧ st'.done = st2.done)
      ∨ (st'.done = true ∧ st'.status = some (st'.failed == some 0)) := by
  unfold testStepCheck at h
  split at h
  · cases h
  · rename_i st3 heq
    have h3 := testParseLine_ok st2 st3 line heq
    split at h
    · cases h
      right
      exact ⟨rfl, rfl⟩
    · cases h
      left
      exact ⟨h3.1, h3.2.1⟩

theorem testStepNotDone_shape (msg_end line : Line) (st1 st' : TestState)
    (h : testStepNotDone msg_end st1 line = Except.ok st') :
    (st'.status = st1.status ∧ st'.done = st1.done)
      ∨ (st'.done = true ∧ st'.status = some (st'.failed == some 0)) := by
  unfold testStepNotDone at h
  split at h
  · rcases testStepCheck_shape msg_end line _ st' h with hc | hc
    · left
      have hb := setInResults_fields st1 (pyStrip line == testsuiteBanner)
      exact ⟨hc.1.trans hb.1, hc.2.trans hb.2⟩
    · right
      exact hc
  · cases h
    left
    exact ⟨rfl, rfl⟩

theorem testStep_shape (msg_start msg_end line : Line) (st st' : TestState)
    (h : testStep msg_start msg_end st line = Except.ok st') :
    (st'.status = st.status ∧ st'.done = st.done)
      ∨ (st'.done = true ∧ st'.status = some (st'.failed == some 0)) := by
  unfold testStep at h
  split at h
  · cases h
    left
    exact ⟨rfl, rfl⟩
  · rcases testStepNotDone_shape msg_end line _ st' h with hc | hc
    · left
      have hs := setInCheck_fields st (is_message line msg_start)
      exact ⟨hc.1.trans hs.1, hc.2.trans hs.2⟩
    · right
      exact hc

theorem testStep_inv (msg_start msg_end line : Line) (st st' : TestState)
    (hinv : TestInv st) (h : testStep msg_start msg_end st line = Except.ok st') :
    TestInv st' := by
  cases hd : st.done with
  | true =>
      unfold testStep at h
      rw [hd] at h
      simp only [if_true] at h
      cases h
      exact hinv
  | false =>
      have hstat : st.status = none := hinv.1 hd
      rcases testStep_shape msg_start msg_end line st st' h with hc | hc
      · constructor
        · intro _
          exact hc.1.trans hstat
        · intro b hb
          rw [hc.1, hstat] at hb
          cases hb
      · constructor
        · intro hfalse
          rw [hc.1] at hfalse
          cases hfalse
        · intro b hb
          rw [hc.2] at hb
          cases hb
          simp

theorem testStep_done_frozen (msg_start msg_end line : Line) (st : TestState)
    (hd : st.done = true) : testStep msg_start msg_end st line = Except.ok st := by
  unfold testStep
  rw [hd]
  simp

theorem testFold_error (msg_start msg_end : Line) (log : List Line) (err : PyError) :
    log.foldl (fun acc line => acc.bind (fun st => testStep msg_start msg_end st line))
        (Except.error err) = Except.error err := by
  induction log with
  | nil => rfl
  | cons l rest ih => exact ih

theorem testFold_inv (msg_start msg_end : Line) (log : List Line) :
    ∀ st st' : TestState, TestInv st →
      log.foldl (fun acc line => acc.bind (fun stx => testStep msg_start msg_end stx line))
          (Except.ok st) = Except.ok st' →
      TestInv st' := by
  induction log with
  | nil =>
      intro st st' hinv h
      cases h
      exact hinv
  | cons l rest ih =>
      intro st st' hinv h
      rw [List.foldl_cons] at h
      cases hstep : testStep msg_start msg_end st l with
      | error err =>
          rw [show (Except.ok st).bind (fun stx => testStep msg_start msg_end stx l)
              = Except.error err from hstep] at h
          rw [testFold_error] at h
          cases h
      | ok st1 =>
          rw [show (Except.ok st).bind (fun stx => testStep msg_start msg_end stx l)
              = Except.ok st1 from hstep] at h
          exact ih st1 st' (testStep_inv msg_start msg_end l st st1 hinv hstep) h

theorem testFold_done (msg_start msg_end : Line) (post : List Line)
    (st : TestState) (hd : st.done = true) :
    post.foldl (fun acc line => acc.bind (fun stx => testStep msg_start msg_end stx line))
        (Except.ok st) = Except.ok st := by
  induction post with
  | nil => rfl
  | cons l rest ih =>
      rw [List.foldl_cons,
        show (Except.ok st).bind (fun stx => testStep msg_start msg_end stx l)
          = Except.ok st from testStep_done_frozen msg_start msg_end l st hd]
      exact ih

theorem testStep_untouched (msg_start msg_end line : Line) (st : TestState)
    (hd : st.done = false) (hc : st.inCheck = false)
    (hs : is_message line msg_start = false) :
    testStep msg_start msg_end st line = Except.ok st := by
  unfold testStep testStepNotDone
  simp [hd, hs, hc]

/-- C7: (1) all three outputs stay None when the section-start marker is
in no line; (2) once the scan has broken out at the end marker (done
flag), appending further lines cannot change the result; (3) whenever the
returned status is set — which only the end-marker branch does — it is
True exactly when the recorded failed count is 0 (a still-missing failed
count, Python None, compares unequal to 0 and gives status False). -/
theorem testsuite_results_spec (msg_start msg_end : Line) :
    (∀ log : List Line, (∀ l ∈ log, is_message l msg_start = false) →
        testsuite_results log msg_start msg_end = Except.ok (none, none, none))
    ∧ (∀ (pre post : List Line) (st : TestState),
        testScan pre msg_start msg_end = Except.ok st → st.done = true →
        testsuite_results (pre ++ post) msg_start msg_end
          = testsuite_results pre msg_start msg_end)
    ∧ (∀ (log : List Line) (st : TestState) (b : Bool),
        testScan log msg_start msg_end = Except.ok st → st.status = some b →
        (b = true ↔ st.failed = some 0)) := by
  refine ⟨?_, ?_, ?_⟩
  · intro log hlog
    have hscan : testScan log msg_start msg_end
        = Except.ok ⟨false, false, none, none, none, false⟩ := by
      unfold testScan
      induction log with
      | nil => rfl
      | cons l rest ih =>
          rw [List.foldl_cons,
            show (Except.ok (⟨false, false, none, none, none, false⟩ : TestState)).bind
                (fun stx => testStep msg_start msg_end stx l)
              = Except.ok ⟨false, false, none, none, none, false⟩ from
              testStep_untouched msg_start msg_end l _ rfl rfl (hlog l (by simp))]
          exact ih (fun y hy => hlog y (by simp [hy]))
    unfold testsuite_results
    rw [hscan]
    rfl
  · intro pre post st hpre hdone
    unfold testsuite_results testScan
    rw [List.foldl_append]
    unfold testScan at hpre
    rw [hpre, testFold_done msg_start msg_end post st hdone]
  · intro log st b hscan hstat
    have hinv : TestInv st :=
      testFold_inv msg_start msg_end log ⟨false, false, none, none, none, false⟩ st
        ⟨fun _ => rfl, fun b0 hb0 => by cases hb0⟩ hscan
    exact hinv.2 b hstat

/-- Witness for C7 at concrete logs: a marker-free log yields the
all-None triple; appending lines after a finished section changes
nothing; and the demo section's status False matches its missing failed
count. -/
theorem testsuite_results_spec_witness :
    testsuite_results [demoPlainLine] tsStart tsEnd = Except.ok (none, none, none)
      ∧ testsuite_results (tsDemoLog ++ [demoPlainLine]) tsStart tsEnd
          = testsuite_results tsDemoLog tsStart tsEnd
      ∧ (false = true ↔ tsDemoState.failed = some 0) :=
  ⟨(testsuite_results_spec tsStart tsEnd).1 [demoPlainLine] (by decide),
   (testsuite_results_spec tsStart tsEnd).2.1 tsDemoLog [demoPlainLine]
     tsDemoState rfl rfl,
   (testsuite_results_spec tsStart tsEnd).2.2 tsDemoLog tsDemoState false rfl rfl⟩

/-- C1 (code bug in the source): the exit-code gate does NOT ignore the
deactivated tool's message table.  With every phase passing and every
other table empty, a single cppcheck message flips the exit code from 0
to 1, although the source's own deactivation comment says "cppcheck
messages will not cause the build to fail" (only the cppcheck
initialization-status check was removed from the gate; the
number_of_msgs_in_summary(summary_cppcheck) == 0 conjunct on source line
902 remained). -/
theorem cppcheck_messages_gate_exit_code :
    build_return_code none none none (some true) (some true) (some true)
        (some true) (some []) (some demoCppSummary) (some []) (some []) = 1
      ∧ build_return_code none none none (some true) (some true) (some true)
          (some true) (some []) (some []) (some []) (some []) = 0
      ∧ number_of_msgs_in_summary (some demoCppSummary) = 1 := by
  decide

/-- Counterexample to C6 as stated: the cppcheck item line
"MSGBLD0155 is never used (style) x" contains "is never used", yet it
contributes to the cppcheck table — the total count of the demo log is 1.
The source checks "is never used" (and "(information)") against the
extracted message, which starts at the first opening parenthesis, not
against the whole line. -/
theorem cppcheck_never_used_line_counted :
    number_of_msgs_in_summary (msg_summary_cppcheck ccDemoLog ccStart ccEnd ccItem)
        = 1
      ∧ containsSub neverUsedTok ccBadLine = true := by
  decide

theorem containsSub_infix_iff (needle hay : Line) :
    containsSub needle hay = true ↔ needle <:+: hay := by
  induction hay with
  | nil => simp [containsSub, List.isEmpty_iff, List.infix_nil]
  | cons c rest ih =>
      simp [containsSub, List.isPrefixOf_iff_prefix, ih, List.infix_cons_iff]

theorem findIdx_append_paren (tail : Line) : ∀ (a : Line) (i : Nat),
    ∃ j : Nat, List.findIdx? (fun x => x == '(') (a ++ '(' :: tail) i = some (i + j)
      ∧ j ≤ a.length := by
  intro a
  induction a with
  | nil =>
      intro i
      refine ⟨0, ?_, Nat.le_refl 0⟩
      simp [List.findIdx?_cons]
  | cons x a' ih =>
      intro i
      by_cases hx : (x == '(') = true
      · refine ⟨0, ?_, Nat.zero_le _⟩
        simp [List.findIdx?_cons, hx]
      · obtain ⟨j, hj, hle⟩ := ih (i + 1)
        refine ⟨j + 1, ?_, by simpa using Nat.succ_le_succ hle⟩
        rw [List.cons_append, List.findIdx?_cons, if_neg (by simpa using hx), hj]
        congr 1
        omega

theorem infix_cppcheck_slice (pat l : Line) (hpat : pat.head? = some '(')
    (h : pat <:+: l) : pat <:+: pySliceFrom l (pyFind '(' l) := by
  rcases h with ⟨s, t, rfl⟩
  cases pat with
  | nil => cases hpat
  | cons p0 pr =>
      have hp0 : p0 = '(' := by simpa using hpat
      subst hp0
      obtain ⟨j, hj, hle⟩ := findIdx_append_paren (pr ++ t) s 0
      have hassoc : s ++ ('(' :: pr) ++ t = s ++ '(' :: (pr ++ t) := by
        simp
      rw [hassoc]
      have hfind : pyFind '(' (s ++ '(' :: (pr ++ t)) = ((0 + j : Nat) : Int) := by
        unfold pyFind
        rw [hj]
      have hslice : pySliceFrom (s ++ '(' :: (pr ++ t))
          (pyFind '(' (s ++ '(' :: (pr ++ t))) = s.drop j ++ '(' :: (pr ++ t) := by
        rw [hfind]
        unfold pySliceFrom
        rw [if_pos (by exact_mod_cast Nat.zero_le _)]
        have h0 : (((0 + j : Nat) : Int)).toNat = j := by omega
        rw [h0]
        exact List.drop_append_of_le_length hle
      rw [hslice]
      exact ⟨s.drop j, t, by simp⟩

theorem infix_dropWhile_of_no_space (pat : Line)
    (hws : ∀ c ∈ pat, pyIsSpace c = false) (hne : pat ≠ []) :
    ∀ l : Line, pat <:+: l → pat <:+: l.dropWhile pyIsSpace := by
  intro l
  induction l with
  | nil =>
      intro h
      rw [List.infix_nil] at h
      exact absurd h hne
  | cons c t ih =>
      intro h
      rw [List.dropWhile_cons]
      by_cases hc : pyIsSpace c = true
      · rw [if_pos hc]
        rcases List.infix_cons_iff.mp h with hp | hi
        · cases pat with
          | nil => exact absurd rfl hne
          | cons p0 pr =>
              obtain ⟨u, hu⟩ := hp
              have hp0 : p0 = c := by
                have := congrArg List.head? hu
                simpa using this
              have hmem : c ∈ p0 :: pr := by
                rw [hp0]
                exact List.mem_cons_self c pr
              rw [hws c hmem] at hc
              cases hc
        · exact ih hi
      · rw [if_neg hc]
        exact h

theorem infix_rdropWhile_of_no_space (pat : Line)
    (hws : ∀ c ∈ pat, pyIsSpace c = false) (hne : pat ≠ []) (l : Line)
    (h : pat <:+: l) : pat <:+: l.rdropWhile pyIsSpace := by
  have hws' : ∀ c ∈ pat.reverse, pyIsSpace c = false := by
    intro c hc
    exact hws c (List.mem_reverse.mp hc)
  have hne' : pat.reverse ≠ [] := by
    simpa using hne
  have h2 : pat.reverse <:+: List.dropWhile pyIsSpace l.reverse :=
    infix_dropWhile_of_no_space pat.reverse hws' hne' l.reverse
      (List.reverse_infix.mpr h)
  have h3 : pat.reverse <:+: ((List.dropWhile pyIsSpace l.reverse).reverse).reverse := by
    simpa using h2
  have h4 : pat <:+: (List.dropWhile pyIsSpace l.reverse).reverse :=
    List.reverse_infix.mp h3
  simpa [List.rdropWhile] using h4

theorem infix_pyStrip (pat : Line) (hws : ∀ c ∈ pat, pyIsSpace c = false)
    (hne : pat ≠ []) (l : Line) (h : pat <:+: l) : pat <:+: pyStrip l :=
  infix_rdropWhile_of_no_space pat hws hne _
    (infix_dropWhile_of_no_space pat hws hne l h)

/-- A line containing "(information)" always yields an extracted message
containing "(information)": the extraction slices from the line's first
opening parenthesis, which is at or before the occurrence, and stripping
removes only whitespace, which "(information)" does not contain. -/
theorem information_in_message (line : Line)
    (h : containsSub informationTok line = true) :
    containsSub informationTok (cppcheck_message line) = true := by
  rw [containsSub_infix_iff] at h ⊢
  unfold cppcheck_message
  exact infix_pyStrip _ (by decide) (by decide) _
    (infix_cppcheck_slice _ _ (by decide) h)

theorem extract_cppcheck_none (line : Line)
    (h : containsSub checkingTok line = true
      ∨ containsSub neverUsedTok (cppcheck_message line) = true
      ∨ containsSub informationTok line = true) :
    extract_cppcheck line = none := by
  unfold extract_cppcheck
  by_cases hc : containsSub checkingTok line = true
  · simp [hc]
  · rcases h with h1 | h2 | h3
    · exact absurd h1 hc
    · simp [hc, cppcheck_message] at h2 ⊢
      simp [h2]
    · have hm := information_in_message line h3
      by_cases hn : containsSub neverUsedTok (cppcheck_message line) = true
      · simp [hc, cppcheck_message] at hn ⊢
        simp [hn]
      · simp [hc, cppcheck_message] at hn hm ⊢
        simp [hn, hm]

theorem summStep_cppcheck_filtered (s e i line : Line) (st : SummState)
    (hsec : st.inSec = true) (hitem : is_message line i = true)
    (hfilt : containsSub checkingTok line = true
      ∨ containsSub neverUsedTok (cppcheck_message line) = true
      ∨ containsSub informationTok line = true) :
    summStep extract_cppcheck s e i st line = st := by
  unfold summStep
  rw [hsec]
  simp [hitem, extract_cppcheck_none line hfilt]

/-- C6, amended: inside an open cppcheck section, an item line containing
"Checking" anywhere, or containing "(information)" anywhere, or whose
extracted message text (the slice from the line's first opening
parenthesis, stripped) contains "is never used", never contributes to the
cppcheck table: deleting such a line from the log leaves the whole
summary unchanged.  (The original line-level phrasing fails only for
"is never used" occurring before the first parenthesis — see the
counterexample.) -/
theorem cppcheck_filtered_line_never_contributes (s e i : Line)
    (pre post : List Line) (line : Line)
    (hsec : (summScan extract_cppcheck pre s e i).inSec = true)
    (hitem : is_message line i = true)
    (hfilt : containsSub checkingTok line = true
      ∨ containsSub neverUsedTok (cppcheck_message line) = true
      ∨ containsSub informationTok line = true) :
    msg_summary_cppcheck (pre ++ line :: post) s e i
      = msg_summary_cppcheck (pre ++ post) s e i := by
  unfold summScan at hsec
  unfold msg_summary_cppcheck msg_summary summScan
  rw [List.foldl_append, List.foldl_append, List.foldl_cons,
    summStep_cppcheck_filtered s e i line _ hsec hitem hfilt]

/-- Witness for the amended C6 at a concrete log: dropping the
"(information)" item line from an open section leaves the summary
unchanged. -/
theorem cppcheck_filtered_line_never_contributes_witness :
    msg_summary_cppcheck ([ccStartLine] ++ ccInfoLine :: []) ccStart ccEnd ccItem
      = msg_summary_cppcheck ([ccStartLine] ++ []) ccStart ccEnd ccItem :=
  cppcheck_filtered_line_never_contributes ccStart ccEnd ccItem [ccStartLine] []
    ccInfoLine (by decide) (by decide) (Or.inr (Or.inr (by decide)))

theorem alistSet_nil {α : Type} (k : Line) (v : α) :
    alistSet k v ([] : List (Line × α)) = [(k, v)] := rfl

theorem alistSet_cons_eq {α : Type} (k : Line) (v v2 : α) (rest : List (Line × α)) :
    alistSet k v ((k, v2) :: rest) = (k, v) :: rest := by
  show (if k = k then (k, v) :: rest else (k, v2) :: alistSet k v rest)
    = (k, v) :: rest
  rw [if_pos rfl]

theorem alistSet_cons_ne {α : Type} (k k2 : Line) (v : α) (v2 : α)
    (rest : List (Line × α)) (h : k ≠ k2) :
    alistSet k v ((k2, v2) :: rest) = (k2, v2) :: alistSet k v rest := by
  show (if k = k2 then (k, v) :: rest else (k2, v2) :: alistSet k v rest)
    = (k2, v2) :: alistSet k v rest
  rw [if_neg h]

theorem alistGet?_cons {α : Type} (k k2 : Line) (v2 : α) (rest : List (Line × α)) :
    alistGet? k ((k2, v2) :: rest)
      = if k = k2 then some v2 else alistGet? k rest := rfl

theorem keysOf_nil {α : Type} : keysOf ([] : List (Line × α)) = [] := rfl

theorem keysOf_cons {α : Type} (k : Line) (v : α) (d : List (Line × α)) :
    keysOf ((k, v) :: d) = k :: keysOf d := rfl

theorem alistGet?_set_self {α : Type} (k : Line) (v : α) (d : List (Line × α)) :
    alistGet? k (alistSet k v d) = some v := by
  induction d with
  | nil =>
      rw [alistSet_nil, alistGet?_cons, if_pos rfl]
  | cons p rest ih =>
      obtain ⟨k2, v2⟩ := p
      by_cases hk : k = k2
      · subst hk
        rw [alistSet_cons_eq, alistGet?_cons, if_pos rfl]
      · rw [alistSet_cons_ne k k2 v v2 rest hk, alistGet?_cons, if_neg hk]
        exact ih

theorem alistGet?_set_ne {α : Type} (k k' : Line) (v : α) (d : List (Line × α))
    (h : k ≠ k') : alistGet? k (alistSet k' v d) = alistGet? k d := by
  induction d with
  | nil =>
      rw [alistSet_nil, alistGet?_cons, if_neg h]
  | cons p rest ih =>
      obtain ⟨k2, v2⟩ := p
      by_cases hk : k' = k2
      · subst hk
        rw [alistSet_cons_eq, alistGet?_cons, alistGet?_cons, if_neg h, if_neg h]
      · rw [alistSet_cons_ne k' k2 v v2 rest hk, alistGet?_cons, alistGet?_cons]
        by_cases hk2 : k = k2
        · rw [if_pos hk2, if_pos hk2]
        · rw [if_neg hk2, if_neg hk2]
          exact ih

theorem mem_keysOf_alistSet {α : Type} (x k : Line) (v : α) (d : List (Line × α)) :
    x ∈ keysOf (alistSet k v d) ↔ x ∈ keysOf d ∨ x = k := by
  induction d with
  | nil =>
      rw [alistSet_nil, keysOf_cons, keysOf_nil]
      simp
  | cons p rest ih =>
      obtain ⟨k2, v2⟩ := p
      by_cases hk : k = k2
      · subst hk
        rw [alistSet_cons_eq, keysOf_cons, keysOf_cons]
        simp only [List.mem_cons]
        tauto
      · rw [alistSet_cons_ne k k2 v v2 rest hk, keysOf_cons, keysOf_cons]
        simp only [List.mem_cons, ih]
        tauto

theorem keysOf_alistSet_mem {α : Type} (k : Line) (v : α) (d : List (Line × α))
    (h : k ∈ keysOf d) : keysOf (alistSet k v d) = keysOf d := by
  induction d with
  | nil =>
      rw [keysOf_nil] at h
      cases h
  | cons p rest ih =>
      obtain ⟨k2, v2⟩ := p
      by_cases hk : k = k2
      · subst hk
        rw [alistSet_cons_eq, keysOf_cons, keysOf_cons]
      · have h' : k ∈ keysOf rest := by
          rw [keysOf_cons, List.mem_cons] at h
          rcases h with h | h
          · exact absurd h hk
          · exact h
        rw [alistSet_cons_ne k k2 v v2 rest hk, keysOf_cons, keysOf_cons, ih h']

theorem alistGet?_eq_none {α : Type} (k : Line) (d : List (Line × α))
    (h : k ∉ keysOf d) : alistGet? k d = none := by
  induction d with
  | nil => rfl
  | cons p rest ih =>
      obtain ⟨k2, v2⟩ := p
      have hk : k ≠ k2 := by
        intro e
        exact h (by rw [keysOf_cons, List.mem_cons]; exact Or.inl e)
      have h' : k ∉ keysOf rest := fun hm =>
        h (by rw [keysOf_cons, List.mem_cons]; exact Or.inr hm)
      rw [alistGet?_cons, if_neg hk]
      exact ih h'

theorem msgIncr_get_self (m : Line) (t : MsgTable) :
    alistGet? m (msgIncr m t) = some ((alistGet? m t).getD 0 + 1) := by
  unfold msgIncr
  cases h : alistGet? m t with
  | none => simp [alistGet?_set_self]
  | some n => simp [alistGet?_set_self]

theorem msgIncr_get_ne (m m' : Line) (t : MsgTable) (h : m' ≠ m) :
    alistGet? m' (msgIncr m t) = alistGet? m' t := by
  unfold msgIncr
  cases hg : alistGet? m t with
  | none => exact alistGet?_set_ne m' m 1 t h
  | some n => exact alistGet?_set_ne m' m (n + 1) t h

theorem summCountOpt_getD (f m : Line) (o : Option Summary) :
    summCountOpt f m (some (o.getD [])) = summCountOpt f m o := by
  cases o <;> rfl

theorem summCount_set_empty_self (f m : Line) (all0 : Summary) :
    summCountOpt f m (some (alistSet f [] all0)) = 0 := by
  unfold summCountOpt
  simp [alistGet?_set_self, alistGet?]

theorem summCount_set_empty_ne (f g m : Line) (all0 : Summary) (h : f ≠ g) :
    summCountOpt f m (some (alistSet g [] all0)) = summCountOpt f m (some all0) := by
  unfold summCountOpt
  rw [Option.getD_some, Option.getD_some, alistGet?_set_ne f g _ all0 h]

theorem summCount_incr_self (f m : Line) (all0 : Summary) :
    summCountOpt f m (some (summIncr f m all0)) = summCountOpt f m (some all0) + 1 := by
  unfold summCountOpt summIncr
  rw [Option.getD_some, Option.getD_some, alistGet?_set_self, Option.getD_some,
    msgIncr_get_self, Option.getD_some]

theorem summCount_incr_ne_file (f g m m2 : Line) (all0 : Summary) (h : f ≠ g) :
    summCountOpt f m (some (summIncr g m2 all0)) = summCountOpt f m (some all0) := by
  unfold summCountOpt summIncr
  rw [Option.getD_some, Option.getD_some, alistGet?_set_ne f g _ all0 h]

theorem summCount_incr_ne_msg (f m m2 : Line) (all0 : Summary) (h : m ≠ m2) :
    summCountOpt f m (some (summIncr f m2 all0)) = summCountOpt f m (some all0) := by
  unfold summCountOpt summIncr
  rw [Option.getD_some, Option.getD_some, alistGet?_set_self, Option.getD_some,
    msgIncr_get_ne m2 m _ h]

theorem keysOf_summIncr_mem (g m2 : Line) (all0 : Summary)
    (h : g ∈ keysOf all0) : keysOf (summIncr g m2 all0) = keysOf all0 := by
  unfold summIncr
  exact keysOf_alistSet_mem g _ all0 h

theorem nodup_filter_map_tail (s : Line) (l : Line) (rest : List Line)
    (h : (((l :: rest).filter (fun x => is_message x s)).map summ_file_of).Nodup) :
    ((rest.filter (fun x => is_message x s)).map summ_file_of).Nodup := by
  rw [List.filter_cons] at h
  cases hms : is_message l s with
  | true =>
      rw [if_pos hms, List.map_cons, List.nodup_cons] at h
      exact h.2
  | false =>
      rw [if_neg (by rw [hms]; exact Bool.false_ne_true)] at h
      exact h

theorem summCount_fold_eq (ex : Line → Option Line) (s e i f m : Line) :
    ∀ (log : List Line) (st : SummState) (c : OpenCountState),
      st.inSec = c.inSec → st.current = c.current →
      (st.inSec = true → st.current ∈ keysOf (st.all.getD [])) →
      (∀ l ∈ log, is_message l s = true →
        summ_file_of l ∉ keysOf (st.all.getD [])) →
      ((log.filter (fun l => is_message l s)).map summ_file_of).Nodup →
      summCountOpt f m st.all = c.count →
      summCountOpt f m ((log.foldl (summStep ex s e i) st).all)
        = (log.foldl (openCountStep ex s e i f m) c).count := by
  intro log
  induction log with
  | nil =>
      intro st c _ _ _ _ _ hcount
      exact hcount
  | cons l rest ih =>
      intro st c hsec hcur hkey hfresh hnodup hcount
      rw [List.foldl_cons, List.foldl_cons]
      by_cases hstart : (!st.inSec && is_message l s) = true
      · have hparts : st.inSec = false ∧ is_message l s = true := by
          simpa using hstart
        have hmsg : is_message l s = true := hparts.2
        have hstart2 : (!c.inSec && is_message l s) = true := by
          rw [← hsec]
          exact hstart
        have e1 : summStep ex s e i st l
            = ⟨some (alistSet (summ_file_of l) [] (st.all.getD [])), true,
               summ_file_of l⟩ := by
          unfold summStep
          rw [if_pos hstart]
        have e2 : openCountStep ex s e i f m c l
            = { c with inSec := true, current := summ_file_of l } := by
          unfold openCountStep
          rw [if_pos hstart2]
        rw [e1, e2]
        have hfl : summ_file_of l ∉ keysOf (st.all.getD []) :=
          hfresh l (List.mem_cons_self l rest) hmsg
        have hfilter : (l :: rest).filter (fun x => is_message x s)
            = l :: rest.filter (fun x => is_message x s) := by
          rw [List.filter_cons, if_pos hmsg]
        rw [hfilter, List.map_cons, List.nodup_cons] at hnodup
        apply ih
        · rfl
        · rfl
        · intro _
          exact (mem_keysOf_alistSet _ _ _ _).mpr (Or.inr rfl)
        · intro l2 hl2 hml2 hmem
          rcases (mem_keysOf_alistSet _ _ _ _).mp hmem with hin | heq
          · exact hfresh l2 (List.mem_cons_of_mem l hl2) hml2 hin
          · apply hnodup.1
            rw [← heq]
            exact List.mem_map_of_mem summ_file_of
              (List.mem_filter.mpr ⟨hl2, hml2⟩)
        · exact hnodup.2
        · by_cases hfg : f = summ_file_of l
          · rw [← hfg, summCount_set_empty_self, ← hcount]
            unfold summCountOpt
            rw [alistGet?_eq_none f _ (hfg ▸ hfl)]
            rfl
          · rw [summCount_set_empty_ne f _ m _ hfg, summCountOpt_getD, hcount]
      · have hstartF : (!st.inSec && is_message l s) = false := by
          cases hby : (!st.inSec && is_message l s)
          · rfl
          · exact absurd hby hstart
        have hstart2F : (!c.inSec && is_message l s) = false := by
          rw [← hsec]
          exact hstartF
        have hnodupT := nodup_filter_map_tail s l rest hnodup
        cases hb : st.inSec with
        | true =>
            have hcb : c.inSec = true := by
              rw [← hsec]
              exact hb
            cases hitem : is_message l i with
            | true =>
                cases hex : ex l with
                | none =>
                    have e1 : summStep ex s e i st l = st := by
                      unfold summStep
                      simp [hstartF, hb, hitem, hex]
                    have e2 : openCountStep ex s e i f m c l = c := by
                      unfold openCountStep
                      simp [hstart2F, hcb, hitem, hex]
                    rw [e1, e2]
                    exact ih st c hsec hcur hkey
                      (fun l2 hl2 hml2 =>
                        hfresh l2 (List.mem_cons_of_mem l hl2) hml2)
                      hnodupT hcount
                | some msg =>
                    have e1 : summStep ex s e i st l
                        = { st with
                            all := some (summIncr st.current msg (st.all.getD [])) } := by
                      unfold summStep
                      simp [hstartF, hb, hitem, hex]
                    have hkeq : keysOf ((some (summIncr st.current msg
                        (st.all.getD []))).getD [])
                        = keysOf (st.all.getD []) := by
                      rw [Option.getD_some]
                      exact keysOf_summIncr_mem st.current msg _ (hkey hb)
                    by_cases hcf : st.current = f ∧ msg = m
                    · have hcf2 : c.current = f ∧ msg = m := by
                        rw [← hcur]
                        exact hcf
                      have e2 : openCountStep ex s e i f m c l
                          = { c with count := c.count + 1 } := by
                        unfold openCountStep
                        simp [hstart2F, hcb, hitem, hex, hcf2]
                      rw [e1, e2]
                      apply ih
                      · exact hsec
                      · exact hcur
                      · intro hs2
                        rw [hkeq]
                        exact hkey hb
                      · intro l2 hl2 hml2
                        rw [hkeq]
                        exact hfresh l2 (List.mem_cons_of_mem l hl2) hml2
                      · exact hnodupT
                      · rw [hcf.1, hcf.2, summCount_incr_self, summCountOpt_getD,
                          hcount]
                    · have hcf2 : ¬(c.current = f ∧ msg = m) := by
                        rw [← hcur]
                        exact hcf
                      have e2 : openCountStep ex s e i f m c l = c := by
                        unfold openCountStep
                        simp [hstart2F, hcb, hitem, hex, hcf2]
                      rw [e1, e2]
                      apply ih
                      · exact hsec
                      · exact hcur
                      · intro hs2
                        rw [hkeq]
                        exact hkey hb
                      · intro l2 hl2 hml2
                        rw [hkeq]
                        exact hfresh l2 (List.mem_cons_of_mem l hl2) hml2
                      · exact hnodupT
                      · by_cases hf2 : st.current = f
                        · have hm2 : m ≠ msg := by
                            intro he
                            exact hcf ⟨hf2, he.symm⟩
                          rw [hf2, summCount_incr_ne_msg f m msg _ hm2,
                            summCountOpt_getD, hcount]
                        · have hf3 : f ≠ st.current := fun he => hf2 he.symm
                          rw [summCount_incr_ne_file f st.current m msg _ hf3,
                            summCountOpt_getD, hcount]
            | false =>
                cases hend : is_message l e with
                | true =>
                    have e1 : summStep ex s e i st l = { st with inSec := false } := by
                      unfold summStep
                      simp [hstartF, hb, hitem, hend]
                    have e2 : openCountStep ex s e i f m c l
                        = { c with inSec := false } := by
                      unfold openCountStep
                      simp [hstart2F, hcb, hitem, hend]
                    rw [e1, e2]
                    apply ih
                    · rfl
                    · exact hcur
                    · intro hs2
                      cases hs2
                    · intro l2 hl2 hml2
                      exact hfresh l2 (List.mem_cons_of_mem l hl2) hml2
                    · exact hnodupT
                    · exact hcount
                | false =>
                    have e1 : summStep ex s e i st l = st := by
                      unfold summStep
                      simp [hstartF, hb, hitem, hend]
                    have e2 : openCountStep ex s e i f m c l = c := by
                      unfold openCountStep
                      simp [hstart2F, hcb, hitem, hend]
                    rw [e1, e2]
                    exact ih st c hsec hcur hkey
                      (fun l2 hl2 hml2 =>
                        hfresh l2 (List.mem_cons_of_mem l hl2) hml2)
                      hnodupT hcount
        | false =>
            have hcb : c.inSec = false := by
              rw [← hsec]
              exact hb
            have hls : is_message l s = false := by
              rw [hb] at hstartF
              simpa using hstartF
            have e1 : summStep ex s e i st l = st := by
              unfold summStep
              simp [hls, hb]
            have e2 : openCountStep ex s e i f m c l = c := by
              unfold openCountStep
              simp [hls, hcb]
            rw [e1, e2]
            exact ih st c hsec hcur hkey
              (fun l2 hl2 hml2 => hfresh l2 (List.mem_cons_of_mem l hl2) hml2)
              hnodupT hcount

/-- Counterexample to C5 as stated: in the demo log f.cpp's vera section
is opened twice with one "msg" item line in each, so 2 item lines inside
f.cpp's open sections yield "msg", but the resulting table maps
(f.cpp, "msg") to 1 — reopening a file's section installs a fresh empty
table at its key, losing the earlier counts. -/
theorem counting_resets_on_reopened_file :
    summCountOpt vFile vMsg (msg_summary_vera vDemoLog vStart vEnd vItem) = 1
      ∧ open_item_count extract_vera vDemoLog vStart vEnd vItem vFile vMsg = 2 := by
  decide

/-- C5, amended: for each of the four extractors, provided no file's
section is opened twice — that is, the file names carried by the lines
containing the outer start marker are pairwise distinct — the resulting
table maps (F, M) to exactly the number of item lines inside F's open
section(s) whose extracted message text is M (0 when absent).  Within one
section, repeated (file, message) pairs do increment a single counter;
only reopening the same file's section resets it, which the
distinctness hypothesis rules out. -/
theorem counting_correct (log : List Line) (s e i f m : Line)
    (hnodup : ((log.filter (fun l => is_message l s)).map summ_file_of).Nodup) :
    summCountOpt f m (msg_summary_vera log s e i)
        = open_item_count extract_vera log s e i f m
      ∧ summCountOpt f m (msg_summary_cppcheck log s e i)
        = open_item_count extract_cppcheck log s e i f m
      ∧ summCountOpt f m (msg_summary_format log s e i)
        = open_item_count extract_format log s e i f m
      ∧ summCountOpt f m (msg_summary_pep8 log s e i)
        = open_item_count extract_pep8 log s e i f m := by
  refine ⟨?_, ?_, ?_, ?_⟩ <;>
    exact summCount_fold_eq _ s e i f m log ⟨none, false, []⟩ ⟨false, [], 0⟩
      rfl rfl (fun h => by cases h) (fun l2 h1 h2 hm => by cases hm) hnodup rfl

/-- Witness for the amended C5 at a concrete log: one section for f.cpp
with two "msg" item lines — the table maps (f.cpp, "msg") to 2, matching
the occurrence count. -/
theorem counting_correct_witness :
    summCountOpt vFile vMsg (msg_summary_vera vDemoLogOnce vStart vEnd vItem)
      = open_item_count extract_vera vDemoLogOnce vStart vEnd vItem vFile vMsg :=
  (counting_correct vDemoLogOnce vStart vEnd vItem vFile vMsg (by decide)).1

/-- C8: when the vera, cppcheck and clang-format per-file tables are all
non-None, code_analysis_per_file_tables succeeds exactly when the three
file-name key sets are identical — stated as permutation of the
(duplicate-free, for dictionaries) key lists.  Any key-set mismatch
fails loudly with the assertion error instead of rendering a partial
table, and identical key sets never fire the asserts: CPython 2's
keys() order is a function of the key set, not of insertion order, so
the asserted list comparison observes exactly key-set equality. -/
theorem per_file_tables_assert_iff (sv sc sf : Summary) (sp : Option Summary) :
    (code_analysis_per_file_tables (some sv) (some sc) (some sf) sp).isOk = true
      ↔ ((keysOf sf).Perm (keysOf sc) ∧ (keysOf sf).Perm (keysOf sv)) := by
  have e : code_analysis_per_file_tables (some sv) (some sc) (some sf) sp
      = if (keysOf sf : Multiset Line) ≠ (keysOf sc : Multiset Line) then
          Except.error assertionError
        else if (keysOf sf : Multiset Line) ≠ (keysOf sv : Multiset Line) then
          Except.error assertionError
        else Except.ok ((keysOf sf).filterMap (fun file => fileBlock file sv sc sf)
          ++ (match sp with
              | none => []
              | some p => (keysOf p).filterMap (pep8Block p))) := rfl
  rw [e]
  by_cases h1 : (keysOf sf : Multiset Line) = (keysOf sc : Multiset Line)
  · by_cases h2 : (keysOf sf : Multiset Line) = (keysOf sv : Multiset Line)
    · rw [if_neg (fun hne => hne h1), if_neg (fun hne => hne h2)]
      exact ⟨fun _ => ⟨Multiset.coe_eq_coe.mp h1, Multiset.coe_eq_coe.mp h2⟩,
        fun _ => rfl⟩
    · rw [if_neg (fun hne => hne h1), if_pos h2]
      constructor
      · intro h
        cases h
      · intro hc
        exact absurd (Multiset.coe_eq_coe.mpr hc.2) h2
  · rw [if_pos h1]
    constructor
    · intro h
      cases h
    · intro hc
      exact absurd (Multiset.coe_eq_coe.mpr hc.1) h1

end PTL
